import Mathlib

/-!
Verification of the MFA-manager one-time-password engine.

The repository stores MFA accounts (`src/models.py`, `src/app.py`) and derives
time-based one-time codes from each account's Base32 secret.  The algorithmic
core (HOTP per RFC 4226, Base32 decoding per RFC 4648, provisioning-URI
assembly) is delegated by the source to the `pyotp` library and the Python
standard library; those parts are modelled here from the specification, while
the wrappers in `src/models.py` and `src/app.py` are embedded directly.

Machine words are modelled as `Nat` with explicit reduction modulo `2 ^ 32`;
byte strings are `List Nat` with every element below 256.
-/

set_option maxRecDepth 1000000

set_option maxHeartbeats 1000000

namespace MfaManager

/-- Reduce a natural number to a 32-bit word. -/
def w32 (n : Nat) : Nat := n % 4294967296

/-- Left rotation of a 32-bit word by `s` places. -/
def rotl (s n : Nat) : Nat := w32 ((n <<< s) ||| (n >>> (32 - s)))

/-- Big-endian byte representation of `n`, exactly `k` bytes long. -/
def beBytes : Nat → Nat → List Nat
  | 0, _ => []
  | k + 1, n => beBytes k (n / 256) ++ [n % 256]

/-- Group a byte list into 32-bit big-endian words (groups of four bytes). -/
def toWords : List Nat → List Nat
  | b0 :: b1 :: b2 :: b3 :: rest =>
      (b0 * 16777216 + b1 * 65536 + b2 * 256 + b3) :: toWords rest
  | _ => []

/-! ## SHA-1 (RFC 3174)

Modelled from the spec: §4.2 requires the OTP algorithm to compute
HMAC-SHA1; the hash itself lives in Python's `hashlib`, not under `src/`. -/

/-- SHA-1 round function `f_t` (RFC 3174 section 5). -/
def sha1F (t b c d : Nat) : Nat :=
  if t < 20 then (b &&& c) ||| ((4294967295 ^^^ b) &&& d)
  else if t < 40 then b ^^^ c ^^^ d
  else if t < 60 then (b &&& c) ||| (b &&& d) ||| (c &&& d)
  else b ^^^ c ^^^ d

/-- SHA-1 round constant `K_t` (RFC 3174 section 5). -/
def sha1K (t : Nat) : Nat :=
  if t < 20 then 1518500249
  else if t < 40 then 1859775393
  else if t < 60 then 2400959708
  else 3395469782

/-- SHA-1 message-schedule extension.  The accumulator `ws` holds the words
produced so far, most recent first; each step appends
`ROTL1 (W[t-3] ^ W[t-8] ^ W[t-14] ^ W[t-16])`. -/
def sha1Extend : List Nat → Nat → List Nat
  | ws, 0 => ws
  | ws, k + 1 =>
      sha1Extend
        (rotl 1 (ws.getD 2 0 ^^^ ws.getD 7 0 ^^^ ws.getD 13 0 ^^^ ws.getD 15 0) :: ws) k

/-- The 80 rounds of one SHA-1 compression, folding over the message schedule.
`t` is the round index (it selects `f_t` and `K_t`). -/
def sha1Rounds : List Nat → Nat → Nat × Nat × Nat × Nat × Nat → Nat × Nat × Nat × Nat × Nat
  | [], _, st => st
  | w :: ws, t, (a, b, c, d, e) =>
      sha1Rounds ws (t + 1)
        (w32 (rotl 5 a + sha1F t b c d + e + sha1K t + w), a, rotl 30 b, c, d)

/-- One SHA-1 compression step on a 64-byte block. -/
def sha1Compress (h : Nat × Nat × Nat × Nat × Nat) (block : List Nat) :
    Nat × Nat × Nat × Nat × Nat :=
  let w80 := (sha1Extend (toWords block).reverse 64).reverse
  match h, sha1Rounds w80 0 h with
  | (h0, h1, h2, h3, h4), (a, b, c, d, e) =>
      (w32 (h0 + a), w32 (h1 + b), w32 (h2 + c), w32 (h3 + d), w32 (h4 + e))

/-- Iterate the compression over consecutive 64-byte blocks.  The first
argument is fuel bounding the number of steps; one byte of input per unit of
fuel is always sufficient since every step consumes 64 bytes. -/
def sha1Blocks : Nat → List Nat → Nat × Nat × Nat × Nat × Nat → Nat × Nat × Nat × Nat × Nat
  | 0, _, h => h
  | _, [], h => h
  | fuel + 1, bytes, h => sha1Blocks fuel (bytes.drop 64) (sha1Compress h (bytes.take 64))

/-- RFC 3174 padding: append `0x80`, zero bytes up to 56 mod 64, then the
bit length as an 8-byte big-endian integer. -/
def sha1Pad (msg : List Nat) : List Nat :=
  msg ++ 128 :: List.replicate ((119 - msg.length % 64) % 64) 0
    ++ beBytes 8 (8 * msg.length)

/-- SHA-1 of a byte string, as a 20-byte digest. -/
def sha1 (msg : List Nat) : List Nat :=
  let padded := sha1Pad msg
  match sha1Blocks padded.length padded
      (1732584193, 4023233417, 2562383102, 271733878, 3285377520) with
  | (a, b, c, d, e) =>
      beBytes 4 a ++ beBytes 4 b ++ beBytes 4 c ++ beBytes 4 d ++ beBytes 4 e

/-! ## HMAC-SHA1 (RFC 2104) -/

/-- HMAC-SHA1 with a 64-byte block size.
Modelled from the spec: §4.2, `HMAC-SHA1(key, message)`; the implementation
lives in Python's `hmac` module, not under `src/`. -/
def hmacSha1 (key msg : List Nat) : List Nat :=
  let k0 := if 64 < key.length then sha1 key else key
  let kpad := k0 ++ List.replicate (64 - k0.length) 0
  sha1 ((kpad.map (fun b => b ^^^ 92)) ++ sha1 ((kpad.map (fun b => b ^^^ 54)) ++ msg))

/-! ## HOTP (RFC 4226) -/

/-- RFC 4226 dynamic truncation: the low four bits of the final digest byte
select an offset; four bytes there form a big-endian 31-bit integer. -/
def dynamicTruncate (hs : List Nat) : Nat :=
  let offset := hs.getD 19 0 &&& 15
  ((hs.getD offset 0 &&& 127) <<< 24) ||| (hs.getD (offset + 1) 0 <<< 16)
    ||| (hs.getD (offset + 2) 0 <<< 8) ||| hs.getD (offset + 3) 0

/-- Little-endian base-10 digits, with explicit fuel so that the kernel can
evaluate it; `decDigitsAux n n` agrees with `Nat.digits 10 n`. -/
def decDigitsAux : Nat → Nat → List Nat
  | 0, _ => []
  | fuel + 1, n => if n = 0 then [] else n % 10 :: decDigitsAux fuel (n / 10)

/-- Little-endian base-10 digits of `n`. -/
def decDigits (n : Nat) : List Nat := decDigitsAux n n

/-- Decimal rendering of a natural number, as Python's `str` produces it. -/
def natToDecString (n : Nat) : String :=
  if n = 0 then "0" else ⟨((decDigits n).map Nat.digitChar).reverse⟩

/-- Left-pad a string with `'0'` up to length `d`, as Python's `zfill` /
the `pyotp` padding loop do. -/
def zfill (d : Nat) (s : String) : String :=
  ⟨List.replicate (d - s.length) '0' ++ s.data⟩

/-- HOTP (RFC 4226): HMAC-SHA1 of the 8-byte big-endian counter, dynamic
truncation, reduction modulo `10 ^ digits`, zero-padded decimal rendering.
Modelled from the spec: §4.2 `hotp(key, counter, digits)`; the implementation
is `pyotp.OTP.generate_otp`, not under `src/`. -/
def hotp (key : List Nat) (counter digits : Nat) : String :=
  zfill digits (natToDecString (dynamicTruncate (hmacSha1 key (beBytes 8 counter)) % 10 ^ digits))

/-! ## Base32 decoding (RFC 4648, as `base64.b32decode` with `casefold=True`)

Modelled from the spec: §4.1 requires the Secret Codec to validate against the
Base32 alphabet `A..Z2..7` case-insensitively with transparent re-padding; the
implementation is `pyotp.OTP.byte_secret` delegating to Python
`base64.b32decode`, neither of which is under `src/`. -/

/-- Python `str.upper` restricted to the ASCII range: lowercase letters
(code points 97..122) are shifted down by 32, everything else is unchanged. -/
def pyUpperChar (c : Char) : Char :=
  if 97 ≤ c.toNat ∧ c.toNat ≤ 122 then Char.ofNat (c.toNat - 32) else c

/-- Value of one (already upper-cased) Base32 alphabet character:
`A..Z` map to `0..25` and `2..7` map to `26..31`; anything else is rejected. -/
def b32Val (c : Char) : Option Nat :=
  if 65 ≤ c.toNat ∧ c.toNat ≤ 90 then some (c.toNat - 65)
  else if 50 ≤ c.toNat ∧ c.toNat ≤ 55 then some (c.toNat - 24)
  else none

/-- Values of a character list, failing on the first non-alphabet character,
as the quanta loop of `base64.b32decode` does. -/
def b32Vals : List Char → Option (List Nat)
  | [] => some []
  | c :: cs =>
      match b32Val c, b32Vals cs with
      | some v, some vs => some (v :: vs)
      | _, _ => none

/-- The input with trailing `=` padding characters removed
(Python `rstrip` of the pad character). -/
def b32Body (s : List Char) : List Char :=
  (s.reverse.dropWhile (fun c => c = '=')).reverse

/-- Number of trailing `=` padding characters. -/
def padCount (s : List Char) : Nat := s.length - (b32Body s).length

/-- Byte assembly of `base64.b32decode`: the character values are consumed in
quanta of eight (40 bits, five bytes); a final partial quantum is shifted up
by five bits per pad character and truncated to `(43 - 5 * pad) / 8` bytes.
The first argument is fuel bounding the number of quanta (one unit per value
is always enough). -/
def b32Chunks : Nat → List Nat → Nat → List Nat
  | 0, _, _ => []
  | _, [], _ => []
  | fuel + 1, vals, pad =>
      let acc := (vals.take 8).foldl (fun a v => a * 32 + v) 0
      let rest := vals.drop 8
      if rest.isEmpty ∧ pad ≠ 0 then
        (beBytes 5 (acc <<< (5 * pad))).take ((43 - 5 * pad) / 8)
      else
        beBytes 5 acc ++ b32Chunks fuel rest pad

/-- `base64.b32decode(input, casefold=True)`: fail unless the length is a
multiple of 8; upper-case; strip trailing padding; decode the quanta,
failing on characters outside the alphabet; fail unless the number of pad
characters is one of `0, 1, 3, 4, 6`. -/
def b32decode (input : List Char) : Option (List Nat) :=
  if input.length % 8 ≠ 0 then none
  else
    let s := input.map pyUpperChar
    let body := b32Body s
    let pad := padCount s
    match b32Vals body with
    | none => none
    | some vals =>
        if pad = 0 ∨ pad = 1 ∨ pad = 3 ∨ pad = 4 ∨ pad = 6 then
          some (b32Chunks (vals.length + 1) vals pad)
        else none

/-- The transparent re-padding of `pyotp.OTP.byte_secret`: when the length is
not a multiple of 8, append `=` characters up to the next multiple. -/
def pyotpPad (s : List Char) : List Char :=
  if s.length % 8 = 0 then s else s ++ List.replicate (8 - s.length % 8) '='

/-- `pyotp.OTP.byte_secret`: re-pad the stored secret text and Base32-decode
it case-insensitively; `none` models the raised `binascii.Error`. -/
def byte_secret (secret : String) : Option (List Nat) :=
  b32decode (pyotpPad secret.data)

/-- `pyotp.TOTP.now` at clock reading `now` (in whole seconds): the counter is
`now / 30` (`timecode` with the default 30-second interval) and the code has
the default six digits.  Modelled from the spec: §4.2
`totp(key, step_seconds, digits, at_time)`; the implementation is in `pyotp`,
not under `src/`. -/
def totpAt (secret : String) (now : Nat) : Option String :=
  (byte_secret secret).map (fun key => hotp key (now / 30) 6)

/-! ## Provisioning URI

Modelled from the spec: §4.4 `build_uri(secret, account_name, issuer, digits,
step)` with the canonical `otpauth://totp/...` form; the implementation is
`pyotp.utils.build_uri`, not under `src/`. -/

/-- Upper-case hexadecimal digit. -/
def hexDigit (n : Nat) : Char :=
  if n < 10 then Char.ofNat (48 + n) else Char.ofNat (55 + n)

/-- Percent-encoding of one character: RFC 3986 unreserved characters
(letters, digits, `-`, `.`, `_`, `~`) stand for themselves, every other
character becomes `%XX`. -/
def percentEncodeChar (c : Char) : List Char :=
  if (65 ≤ c.toNat ∧ c.toNat ≤ 90) ∨ (97 ≤ c.toNat ∧ c.toNat ≤ 122)
      ∨ (48 ≤ c.toNat ∧ c.toNat ≤ 57)
      ∨ c = '-' ∨ c = '.' ∨ c = '_' ∨ c = '~' then [c]
  else ['%', hexDigit (c.toNat / 16 % 16), hexDigit (c.toNat % 16)]

/-- Percent-encoding of a string (URI label / query-value escaping). -/
def percentEncode (s : String) : String :=
  ⟨(s.data.map percentEncodeChar).flatten⟩

/-- Query-string assembly: `key=value` pairs joined by `&`. -/
def queryString : List (String × String) → String
  | [] => ""
  | [p] => p.1 ++ "=" ++ p.2
  | p :: ps => p.1 ++ "=" ++ p.2 ++ "&" ++ queryString ps

/-- Modelled from the spec: §4.4 canonical provisioning URI
`otpauth://totp/{issuer-enc}:{account-enc}?secret={base32}&issuer={issuer-enc}&algorithm=SHA1&digits={digits}&period={step}`. -/
def build_uri (secret name issuer : String) (digits step : Nat) : String :=
  "otpauth://totp/" ++ percentEncode issuer ++ ":" ++ percentEncode name ++ "?" ++
    queryString
      [(("secret"), secret), (("issuer"), percentEncode issuer),
       (("algorithm"), ("SHA1")), (("digits"), natToDecString digits),
       (("period"), natToDecString step)]

/-! ## The account model (`src/models.py`) -/

/-- `MFAAccount` (src/models.py): the columns relevant to code derivation and
provisioning.  `created_at` and `updated_at` play no role in any operation
modelled here. -/
structure MFAAccount where
  id : Nat
  account_name : String
  secret : String
  issuer : String
  hidden : Bool
deriving DecidableEq

/-- `MFAAccount.get_totp_code` (src/models.py lines 29-32):
`pyotp.TOTP(self.secret).now()`.  The source method takes no time argument;
the `now` parameter here models the value the library reads from the global
clock inside `TOTP.now` (see claim C4). -/
def MFAAccount.get_totp_code (a : MFAAccount) (now : Nat) : Option String :=
  totpAt a.secret now

/-- `MFAAccount.get_remaining_time` (src/models.py lines 34-37):
`30 - (int(datetime.now().timestamp()) % 30)`.  The constructed
`pyotp.TOTP(self.secret)` object is never used by the method body.  The source
method takes no time argument; the `now` parameter models the value read from
the global clock via `datetime.now` (see claim C4). -/
def MFAAccount.get_remaining_time (_a : MFAAccount) (now : Nat) : Nat :=
  30 - now % 30

/-- Modelled from the spec: §4.3 `remaining_seconds(step_seconds, at_time)`,
the step-parametric form of the computation that
`MFAAccount.get_remaining_time` instantiates at the hard-coded step 30. -/
def remaining_seconds (step t : Nat) : Nat := step - t % step

/-- `MFAAccount.get_qr_code_url` (src/models.py lines 39-44):
`pyotp.totp.TOTP(self.secret).provisioning_uri(name=..., issuer_name=...)`
with the default six digits and 30-second period. -/
def MFAAccount.get_qr_code_url (a : MFAAccount) : String :=
  build_uri a.secret a.account_name a.issuer 6 30

/-! ## The registry operations (`src/app.py`) -/

/-- Secret normalization applied by `add_account` and `edit_account`
(src/app.py): `secret.upper().replace(' ', '')`. -/
def normalizeSecret (s : String) : String :=
  ⟨(s.data.map pyUpperChar).filter (fun c => c != ' ')⟩

/-- The secret validation of `add_account` / `edit_account` (src/app.py):
`pyotp.TOTP(secret).now()` succeeds, i.e. the secret Base32-decodes after
transparent re-padding (`InvalidSecret` is modelled by `false`). -/
def validSecret (secret : String) : Bool :=
  (byte_secret secret).isSome

/-- `add_account` POST path (src/app.py lines 44-86), restricted to the data
it stores: reject missing fields, validate the secret via
`pyotp.TOTP(secret).now()`, default a falsy issuer to the string
`MFA Manager` (models.py `__init__`), and store the normalized secret.  The
duplicate-name check and database commit concern the registry, not the data
stored, and are omitted. -/
def add_account (account_name secret issuer : String) : Option MFAAccount :=
  if account_name = "" ∨ secret = "" then none
  else if validSecret secret then
    some
      { id := 0, account_name := account_name, secret := normalizeSecret secret,
        issuer := (if issuer = "" then ("MFA Manager") else issuer), hidden := false }
  else none

/-- `edit_account` POST path (src/app.py lines 151-200), restricted to the
data it stores: reject missing fields, validate the new secret via
`pyotp.TOTP(new_secret).now()`, and store the normalized secret.  The
name-conflict check and database commit are omitted as for `add_account`. -/
def edit_account (a : MFAAccount) (new_name new_secret new_issuer : String)
    (new_hidden : Bool) : Option MFAAccount :=
  if new_name = "" ∨ new_secret = "" then none
  else if validSecret new_secret then
    some
      { id := a.id, account_name := new_name, secret := normalizeSecret new_secret,
        issuer := new_issuer, hidden := new_hidden }
  else none

/-! ## Concrete values used by the known-answer theorems -/

/-- The RFC 4226 Appendix D key: the ASCII bytes of `12345678901234567890`. -/
def rfcKey : List Nat :=
  [49, 50, 51, 52, 53, 54, 55, 56, 57, 48, 49, 50, 51, 52, 53, 54, 55, 56, 57, 48]

/-- Base32 encoding of the RFC 4226 key. -/
def katSecret : String := "GEZDGNBVGY3TQOJQGEZDGNBVGY3TQOJQ"

/-- An account holding the RFC 4226 known-answer secret. -/
def katAccount : MFAAccount :=
  { id := 1, account_name := "alice@example.com", secret := katSecret,
    issuer := "MFA Manager", hidden := false }

/-- The invalid-secret example from the spec. -/
def notB32 : String := "not-base32!"

/-- Membership in the Base32 alphabet `A..Z2..7` (for already upper-cased
characters). -/
def b32UpperAlpha (c : Char) : Prop :=
  (65 ≤ c.toNat ∧ c.toNat ≤ 90) ∨ (50 ≤ c.toNat ∧ c.toNat ≤ 55)

instance decB32UpperAlpha (c : Char) : Decidable (b32UpperAlpha c) := by
  unfold b32UpperAlpha
  exact inferInstance

/-- Python whitespace characters recognized by `str.strip`. -/
def pyWhitespace (c : Char) : Bool :=
  c.toNat = 32 || c.toNat = 9 || c.toNat = 10 || c.toNat = 13 || c.toNat = 11 || c.toNat = 12

/-- Python `str.strip`: remove leading and trailing whitespace. -/
def pyStrip (s : String) : String :=
  ⟨((s.data.dropWhile pyWhitespace).reverse.dropWhile pyWhitespace).reverse⟩

/-! ## Helper lemmas -/

/-- `String.append` concatenates the underlying character lists. -/
lemma dataAppend (s t : String) : (s ++ t).data = s.data ++ t.data := by
  cases s; cases t; rfl

/-- The TOTP code of the known-answer account in the first time window. -/
lemma kat_code : katAccount.get_totp_code 0 = some ("755224") := by decide

/-- The pyotp re-padding always produces a length that is a multiple of 8. -/
lemma pyotpPad_mod (l : List Char) : (pyotpPad l).length % 8 = 0 := by
  unfold pyotpPad
  split_ifs with h
  · exact h
  · simp only [List.length_append, List.length_replicate]
    omega

/-- A character has a Base32 value exactly when it is in the upper-case
Base32 alphabet. -/
lemma b32Val_isSome (c : Char) : (b32Val c).isSome = true ↔ b32UpperAlpha c := by
  unfold b32Val b32UpperAlpha
  split_ifs with h1 h2 <;> simp <;> omega

/-- The quanta loop succeeds exactly when every character is in the
upper-case Base32 alphabet. -/
lemma b32Vals_isSome (l : List Char) :
    (b32Vals l).isSome = true ↔ ∀ c ∈ l, b32UpperAlpha c := by
  induction l with
  | nil => simp [b32Vals]
  | cons c cs ih =>
      simp only [b32Vals, List.forall_mem_cons]
      rw [← b32Val_isSome c, ← ih]
      cases b32Val c <;> cases b32Vals cs <;> simp

/-- The fueled digit function agrees with `Nat.digits` in base 10 whenever
the fuel dominates the argument. -/
lemma decDigitsAux_eq : ∀ (fuel n : Nat), n ≤ fuel → decDigitsAux fuel n = Nat.digits 10 n
  | 0, n, hn => by
      have h0 : n = 0 := Nat.le_zero.mp hn
      subst h0; simp [decDigitsAux]
  | fuel + 1, n, hn => by
      by_cases h0 : n = 0
      · subst h0; simp [decDigitsAux]
      · have hpos : 0 < n := Nat.pos_of_ne_zero h0
        have hdiv : n / 10 ≤ fuel := by
          have := Nat.div_lt_self hpos (by norm_num : 1 < 10)
          omega
        rw [Nat.digits_def' (by norm_num : (1 : ℕ) < 10) hpos]
        simp only [decDigitsAux, h0, if_false]
        rw [decDigitsAux_eq fuel (n / 10) hdiv]

/-- `decDigits` agrees with `Nat.digits` in base 10. -/
lemma decDigits_eq (n : Nat) : decDigits n = Nat.digits 10 n :=
  decDigitsAux_eq n n le_rfl

/-- The decimal rendering of `n < 10 ^ k` has at most `k` characters. -/
lemma natToDecString_length_le {n k : Nat} (hk : 1 ≤ k) (hn : n < 10 ^ k) :
    (natToDecString n).length ≤ k := by
  by_cases h0 : n = 0
  · subst h0; simpa [natToDecString, String.length] using hk
  · have hlen : (natToDecString n).length = (Nat.digits 10 n).length := by
      simp [natToDecString, h0, String.length, decDigits_eq]
    rw [hlen]
    by_contra hgt
    push_neg at hgt
    have f1 : 10 ^ (Nat.digits 10 n).length ≤ 10 * n :=
      Nat.base_pow_length_digits_le 10 n (by norm_num) h0
    have f2 : 10 ^ (k + 1) ≤ 10 ^ (Nat.digits 10 n).length :=
      Nat.pow_le_pow_right (by norm_num) hgt
    have f3 : (10 : ℕ) * 10 ^ k ≤ 10 * n := by
      calc (10 : ℕ) * 10 ^ k = 10 ^ (k + 1) := by ring
        _ ≤ 10 ^ (Nat.digits 10 n).length := f2
        _ ≤ 10 * n := f1
    have hle : 10 ^ k ≤ n := Nat.le_of_mul_le_mul_left f3 (by norm_num)
    exact absurd hn (not_lt.mpr hle)

/-- Every character of the decimal rendering is a decimal digit. -/
lemma natToDecString_digits (n : Nat) : ∀ c ∈ (natToDecString n).data, c.isDigit = true := by
  intro c hc
  by_cases h0 : n = 0
  · subst h0
    simp [natToDecString] at hc
    subst hc; decide
  · simp [natToDecString, h0, decDigits_eq] at hc
    obtain ⟨d, hd, he⟩ := hc
    have hlt : d < 10 := Nat.digits_lt_base (by norm_num) hd
    subst he
    interval_cases d <;> decide

/-- Zero-padding to `d` characters yields exactly `d` characters whenever the
input is at most `d` characters long. -/
lemma zfill_length {d : Nat} (s : String) (h : s.length ≤ d) : (zfill d s).length = d := by
  simp only [String.length] at h
  simp only [zfill, String.length, List.length_append, List.length_replicate]
  omega

/-- Zero-padding preserves the all-digits property. -/
lemma zfill_digits {d : Nat} {s : String} (h : ∀ c ∈ s.data, c.isDigit = true) :
    ∀ c ∈ (zfill d s).data, c.isDigit = true := by
  intro c hc
  simp only [zfill, List.mem_append, List.mem_replicate] at hc
  rcases hc with ⟨-, hc⟩ | hc
  · subst hc; decide
  · exact h c hc

/-- Every HOTP code with six digits is a six-character decimal string. -/
lemma hotp_spec (key : List Nat) (counter : Nat) :
    (hotp key counter 6).length = 6 ∧ ∀ c ∈ (hotp key counter 6).data, c.isDigit = true := by
  have hlt : dynamicTruncate (hmacSha1 key (beBytes 8 counter)) % 10 ^ 6 < 10 ^ 6 :=
    Nat.mod_lt _ (by norm_num)
  exact ⟨zfill_length _ (natToDecString_length_le (by norm_num) hlt),
    zfill_digits (natToDecString_digits _)⟩

/-! ## Claim theorems -/

/-- C1: for the RFC 4226 known-answer vector — the key equal to the ASCII
bytes of `12345678901234567890`, supplied to the account as its Base32
encoding, counter 0, six digits — the HOTP/TOTP computation used by
`get_totp_code` produces exactly the code `755224`. -/
theorem claim_C1 :
    byte_secret katSecret = some rfcKey ∧
    hotp rfcKey 0 6 = "755224" ∧
    katAccount.get_totp_code 0 = some ("755224") := by
  refine ⟨by decide, by decide, kat_code⟩

/-- C5: for every secret and any two times falling in the same 30-second
window (`t1 / 30 = t2 / 30`), `get_totp_code` yields the same code: the code
is a pure function of `(key, counter, digits)` with no hidden state. -/
theorem claim_C5 (a : MFAAccount) (t1 t2 : Nat) (h : t1 / 30 = t2 / 30) :
    a.get_totp_code t1 = a.get_totp_code t2 := by
  simp only [MFAAccount.get_totp_code, totpAt, h]

/-- Witness for C5 at the known-answer account and the times 5 and 25. -/
theorem claim_C5_witness :
    katAccount.get_totp_code 5 = katAccount.get_totp_code 25 :=
  claim_C5 katAccount 5 25 (by decide)

/-- C3: the remaining-time computation equals
`step - (floor t mod step)`, always lies in `[1, step]`, returns the full
`step` at an exact window boundary, and `get_remaining_time` is its instance
at the hard-coded step 30. -/
theorem claim_C3 (step t : Nat) (h : 0 < step) :
    remaining_seconds step t = step - t % step ∧
    1 ≤ remaining_seconds step t ∧
    remaining_seconds step t ≤ step ∧
    (t % step = 0 → remaining_seconds step t = step) ∧
    (∀ a : MFAAccount, a.get_remaining_time t = remaining_seconds 30 t) := by
  have hm : t % step < step := Nat.mod_lt _ h
  refine ⟨rfl, ?_, ?_, ?_, fun a => rfl⟩
  · simp only [remaining_seconds]; omega
  · simp only [remaining_seconds]; omega
  · intro h0; simp only [remaining_seconds, h0]; omega

/-- Witness for C3 at step 30 and the window boundary `t = 60`. -/
theorem claim_C3_witness :
    remaining_seconds 30 60 = 30 - 60 % 30 ∧
    1 ≤ remaining_seconds 30 60 ∧
    remaining_seconds 30 60 ≤ 30 ∧
    (60 % 30 = 0 → remaining_seconds 30 60 = 30) ∧
    (∀ a : MFAAccount, a.get_remaining_time 60 = remaining_seconds 30 60) :=
  claim_C3 30 60 (by decide)

/-- C4: the code contradicts the claim that the core functions take the
current time as an explicit parameter and never read the global clock —
`get_remaining_time` reads `datetime.now()` and `get_totp_code` calls
`pyotp.TOTP.now()`, both of which consult the global clock internally.  This
theorem evaluates the embedded methods at two ambient clock readings: the
explicit arguments (the account) are identical, yet the results differ,
which is exactly the dependence on the hidden clock. -/
theorem claim_C4 :
    katAccount.get_remaining_time 0 = 30 ∧
    katAccount.get_remaining_time 1 = 29 ∧
    katAccount.get_remaining_time 0 ≠ katAccount.get_remaining_time 1 ∧
    katAccount.get_totp_code 0 = some ("755224") ∧
    katAccount.get_totp_code 30 = some ("287082") ∧
    katAccount.get_totp_code 0 ≠ katAccount.get_totp_code 30 := by
  refine ⟨rfl, rfl, by decide, kat_code, by decide, ?_⟩
  rw [kat_code, show katAccount.get_totp_code 30 = some ("287082") by decide]
  decide

/-- `Char.ofNat` of a valid code point has that code point as its value. -/
lemma toNat_ofNat_valid {n : Nat} (h : n.isValidChar) : (Char.ofNat n).toNat = n := by
  rw [Char.ofNat, dif_pos h]; rfl

/-- The code point produced by the ASCII upper-casing map. -/
lemma pyUpperChar_toNat (c : Char) :
    (pyUpperChar c).toNat =
      if 97 ≤ c.toNat ∧ c.toNat ≤ 122 then c.toNat - 32 else c.toNat := by
  by_cases h : 97 ≤ c.toNat ∧ c.toNat ≤ 122
  · simp only [pyUpperChar, h, if_pos]
    exact toNat_ofNat_valid (Or.inl (by omega))
  · simp [pyUpperChar, h]

/-- Upper-casing never produces a lowercase letter. -/
lemma pyUpperChar_not_lower (c : Char) :
    ¬ (97 ≤ (pyUpperChar c).toNat ∧ (pyUpperChar c).toNat ≤ 122) := by
  rw [pyUpperChar_toNat]
  split_ifs with h <;> omega

/-- A character that is not a lowercase letter is fixed by upper-casing. -/
lemma pyUpperChar_fix {d : Char} (h : ¬ (97 ≤ d.toNat ∧ d.toNat ≤ 122)) :
    pyUpperChar d = d := by
  simp [pyUpperChar, h]

/-- ASCII upper-casing is idempotent. -/
lemma pyUpperChar_idem (c : Char) : pyUpperChar (pyUpperChar c) = pyUpperChar c :=
  pyUpperChar_fix (pyUpperChar_not_lower c)

/-- The normalization pass is idempotent at the character-list level. -/
lemma normalize_list_idem (l : List Char) :
    (((l.map pyUpperChar).filter (fun c => c != ' ')).map pyUpperChar).filter
        (fun c => c != ' ')
      = (l.map pyUpperChar).filter (fun c => c != ' ') := by
  induction l with
  | nil => rfl
  | cons c cs ih =>
      by_cases hq : (pyUpperChar c != ' ') = true
      · simp only [List.map_cons, List.filter_cons, hq, if_true, pyUpperChar_idem, ih]
      · simp [List.map_cons, List.filter_cons, hq, ih]

/-- `secret.upper().replace(' ', '')` is idempotent: normalizing an already
normalized secret changes nothing. -/
lemma normalizeSecret_idem (s : String) :
    normalizeSecret (normalizeSecret s) = normalizeSecret s :=
  congrArg String.mk (normalize_list_idem s.data)

/-- C10: at any fixed instant the remaining time reported by
`get_remaining_time` is the same for every account — the computation uses the
hard-coded 30-second step and reads none of the account state. -/
theorem claim_C10 (a1 a2 : MFAAccount) (now : Nat) :
    a1.get_remaining_time now = a2.get_remaining_time now := rfl

/-- C2: the provisioning URI returned by `get_qr_code_url` has exactly the
canonical form
`otpauth://totp/{issuer-enc}:{account-enc}?secret={base32}&issuer={issuer-enc}&algorithm=SHA1&digits=6&period=30`,
with the account name and issuer percent-encoded and the secret emitted as
the stored Base32 text. -/
theorem claim_C2 (a : MFAAccount) :
    a.get_qr_code_url =
      "otpauth://totp/" ++ percentEncode a.issuer ++ ":" ++ percentEncode a.account_name
        ++ "?secret=" ++ a.secret ++ "&issuer=" ++ percentEncode a.issuer
        ++ "&algorithm=SHA1&digits=6&period=30" := by
  have h6 : natToDecString 6 = "6" := rfl
  have h30 : natToDecString 30 = "30" := rfl
  show build_uri a.secret a.account_name a.issuer 6 30 = _
  apply String.ext
  simp [build_uri, queryString, h6, h30, dataAppend]

/-- C7: every code produced by `get_totp_code` is a string of exactly six
characters (the default digit count), each a decimal digit, and a small
computed value is zero-padded on the left: value 42 with six digits renders
as `000042`. -/
theorem claim_C7 :
    (∀ (a : MFAAccount) (now : Nat) (code : String),
        a.get_totp_code now = some code →
          code.length = 6 ∧ ∀ c ∈ code.data, c.isDigit = true) ∧
    zfill 6 (natToDecString 42) = "000042" := by
  constructor
  · intro a now code h
    simp only [MFAAccount.get_totp_code, totpAt, Option.map_eq_some'] at h
    obtain ⟨key, -, hk⟩ := h
    subst hk
    exact hotp_spec key (now / 30)
  · decide

/-- Witness for C7 at the known-answer account in the first window. -/
theorem claim_C7_witness :
    (("755224" : String).length = 6 ∧ ∀ c ∈ ("755224" : String).data, c.isDigit = true) ∧
    zfill 6 (natToDecString 42) = "000042" :=
  ⟨claim_C7.1 katAccount 0 ("755224") kat_code, claim_C7.2⟩

/-- C9: every secret persisted through `add_account` or `edit_account` is
stored normalized — upper-cased with ASCII spaces removed — so the stored
field satisfies `secret == secret.upper().replace(' ', '')`. -/
theorem claim_C9 :
    (∀ (name secret issuer : String) (acct : MFAAccount),
        add_account name secret issuer = some acct →
          acct.secret = normalizeSecret acct.secret) ∧
    (∀ (a : MFAAccount) (name secret issuer : String) (hid : Bool) (acct : MFAAccount),
        edit_account a name secret issuer hid = some acct →
          acct.secret = normalizeSecret acct.secret) := by
  constructor
  · intro name secret issuer acct h
    unfold add_account at h
    by_cases h1 : name = "" ∨ secret = ""
    · rw [if_pos h1] at h; cases h
    · rw [if_neg h1] at h
      by_cases h2 : validSecret secret = true
      · rw [if_pos h2] at h
        injection h with h
        subst h
        exact (normalizeSecret_idem secret).symm
      · rw [if_neg h2] at h; cases h
  · intro a name secret issuer hid acct h
    unfold edit_account at h
    by_cases h1 : name = "" ∨ secret = ""
    · rw [if_pos h1] at h; cases h
    · rw [if_neg h1] at h
      by_cases h2 : validSecret secret = true
      · rw [if_pos h2] at h
        injection h with h
        subst h
        exact (normalizeSecret_idem secret).symm
      · rw [if_neg h2] at h; cases h

/-- Witness for C9: adding an account with the lowercase secret `gezdgnbvgy3tqojq`
stores the normalized secret `GEZDGNBVGY3TQOJQ`, which is a fixed point of
normalization. -/
theorem claim_C9_witness :
    ({ id := 0, account_name := ("alice"), secret := ("GEZDGNBVGY3TQOJQ"),
       issuer := ("Ex"), hidden := false } : MFAAccount).secret =
      normalizeSecret
        ({ id := 0, account_name := ("alice"), secret := ("GEZDGNBVGY3TQOJQ"),
           issuer := ("Ex"), hidden := false } : MFAAccount).secret :=
  claim_C9.1 ("alice") ("gezdgnbvgy3tqojq") ("Ex") _ (by decide)

/-- C6 counterexample: the claimed characterization — validation fails
exactly when the input is empty after stripping, contains a character outside
the (case-insensitively read) Base32 alphabet, or decodes to zero bytes — is
false at the input `AAA`: all three conditions fail for `AAA`, yet the
validation rejects it, because pyotp re-pads it to `AAA=====` and five pad
characters is not a legal Base32 padding amount. -/
theorem claim_C6_cex :
    ¬ (validSecret ("AAA") = false ↔
        (pyStrip ("AAA") = "" ∨
         (∃ c ∈ ("AAA" : String).data, ¬ b32UpperAlpha (pyUpperChar c)) ∨
         byte_secret ("AAA") = some [])) := by decide

/-- C6 (amended): the validation `pyotp.TOTP(secret).now()` succeeds exactly
when, after upper-casing and transparent re-padding to a multiple of eight,
every non-padding character is in the Base32 alphabet `A..Z2..7` and the
number of trailing pad characters is a legal Base32 amount (0, 1, 3, 4
or 6 — so inputs whose length is 1, 3 or 6 mod 8 are rejected even when all
their characters are in the alphabet); `not-base32!` is rejected, padded and
unpadded secrets (`MFRA====`, `MFRA`) are both accepted, and the empty
secret — which the validation itself would accept — is rejected earlier by
the required-fields check of `add_account`. -/
theorem claim_C6 :
    (∀ s : String,
        validSecret s = true ↔
          ((∀ c ∈ b32Body ((pyotpPad s.data).map pyUpperChar), b32UpperAlpha c) ∧
            (padCount ((pyotpPad s.data).map pyUpperChar) = 0 ∨
             padCount ((pyotpPad s.data).map pyUpperChar) = 1 ∨
             padCount ((pyotpPad s.data).map pyUpperChar) = 3 ∨
             padCount ((pyotpPad s.data).map pyUpperChar) = 4 ∨
             padCount ((pyotpPad s.data).map pyUpperChar) = 6))) ∧
    validSecret notB32 = false ∧
    validSecret ("MFRA====") = true ∧
    validSecret ("MFRA") = true ∧
    add_account ("alice") ("") ("MFA Manager") = none := by
  refine ⟨?_, by decide, by decide, by decide, by decide⟩
  intro s
  have hmod : (pyotpPad s.data).length % 8 = 0 := pyotpPad_mod s.data
  unfold validSecret byte_secret b32decode
  rw [if_neg (by simp [hmod])]
  simp only []
  cases hv : b32Vals (b32Body ((pyotpPad s.data).map pyUpperChar)) with
  | none =>
      simp only [hv, Option.isSome_none]
      constructor
      · intro h; cases h
      · rintro ⟨hall, -⟩
        have := (b32Vals_isSome _).mpr hall
        rw [hv] at this
        cases this
  | some vals =>
      simp only [hv]
      have hall := (b32Vals_isSome (b32Body ((pyotpPad s.data).map pyUpperChar))).mp
        (by rw [hv]; rfl)
      split_ifs with hp
      · simp only [Option.isSome_some, true_iff]
        exact ⟨hall, hp⟩
      · constructor
        · intro h; cases h
        · rintro ⟨-, hp2⟩
          exact absurd hp2 hp

/-- Witness for C2 at the known-answer account. -/
theorem claim_C2_witness :
    katAccount.get_qr_code_url =
      "otpauth://totp/" ++ percentEncode ("MFA Manager") ++ ":"
        ++ percentEncode ("alice@example.com")
        ++ "?secret=" ++ katSecret ++ "&issuer=" ++ percentEncode ("MFA Manager")
        ++ "&algorithm=SHA1&digits=6&period=30" :=
  claim_C2 katAccount

end MfaManager
